import Mathlib

/-!
Verification of the ttrpg-table-manager core: the table data model and
range-query engine (src/models.py), the CSV row ingestion logic
(src/loaders.py), the directory listing and navigation state machine of the
terminal UI (src/views.py), and the plain CLI query loop (src/main.py).

Python integers are unbounded, so they are embedded as `Int`.  String
primitives used by the code (`str.strip`, `str.lower`, `int(...)`,
`str.split('-')`) are embedded as structurally recursive functions over
`List Char` restricted to the ASCII behaviour the table files exercise.

`TableDirectory` is imported from `models` by every module of the
repository but `src/models.py` does not define it; its shape and its
`add_subdir` operation are modelled from the spec (sections 3 and 4.2) and
from the expectations in `src/tests/test_models.py`.  Because directory
nodes carry parent back-references, the tree is embedded as an arena: nodes
are identified by natural numbers and a `Store` maps each identifier to its
node record.
-/

namespace TTRPG

/-! ## Python string and integer primitives -/

/-- The ASCII whitespace characters `str.strip` removes. -/
def pyIsSpace (c : Char) : Bool :=
  c = ' ' || c = '\t' || c = '\n' || c = '\x0d' || c = '\x0b' || c = '\x0c'

/-- `str.strip()` on a character list: drop whitespace from both ends. -/
def pyStripL (l : List Char) : List Char :=
  ((l.dropWhile pyIsSpace).reverse.dropWhile pyIsSpace).reverse

/-- `str.strip()`. -/
def pyStrip (s : String) : String :=
  String.mk (pyStripL s.data)

/-- `str.lower()` (ASCII letters, which is all the code compares against). -/
def pyLower (s : String) : String :=
  String.mk (s.data.map Char.toLower)

/-- Numeric value of a decimal digit character. -/
def digitVal (c : Char) : Nat := c.toNat - 48

/-- Digits of a Python int literal after the first digit: decimal digits with
single underscores allowed between digits (as `int(...)` accepts). -/
def pyDigits : Nat → List Char → Option Nat
  | acc, [] => some acc
  | acc, [c] => if c.isDigit then some (acc * 10 + digitVal c) else none
  | acc, c :: c2 :: cs =>
      if c.isDigit then pyDigits (acc * 10 + digitVal c) (c2 :: cs)
      else if c = '_' && c2.isDigit then pyDigits (acc * 10 + digitVal c2) cs
      else none

/-- A nonempty digit sequence (first character must be a digit). -/
def pyDigitsStart : List Char → Option Nat
  | [] => none
  | c :: cs => if c.isDigit then pyDigits (digitVal c) cs else none

/-- `int(str)` after stripping: an optional sign then digits. -/
def pyIntCore : List Char → Option Int
  | [] => none
  | '+' :: cs => (pyDigitsStart cs).map Int.ofNat
  | '-' :: cs => (pyDigitsStart cs).map (fun n => -(n : Int))
  | cs => (pyDigitsStart cs).map Int.ofNat

/-- Python `int(str)`: strips whitespace, parses an optionally signed decimal
integer, `none` on failure (a `ValueError` in the source). -/
def pyInt (s : String) : Option Int :=
  pyIntCore (pyStripL s.data)

/-- Python `str.split('-')`: split a character list on every `'-'`. -/
def splitDash : List Char → List (List Char)
  | [] => [[]]
  | c :: cs =>
      let r := splitDash cs
      if c = '-' then [] :: r
      else
        match r with
        | [] => [[c]]
        | g :: gs => (c :: g) :: gs

/-! ## src/models.py -/

/-- `TableRow` of src/models.py: an inclusive integer range plus content
fields (everything after the range column). -/
structure TableRow where
  range_start : Int
  range_end : Int
  content : List String
deriving DecidableEq

/-- `TableRow.matches` (src/models.py line 28): the value falls within the
row's inclusive range. -/
def TableRow.matches (r : TableRow) (value : Int) : Bool :=
  decide (r.range_start ≤ value) && decide (value ≤ r.range_end)

/-- `Table` of src/models.py. -/
structure Table where
  name : String
  headers : List String
  rows : List TableRow
deriving DecidableEq

/-- The scan of `Table.query` (src/models.py lines 41-44): first row whose
range matches, in stored order. -/
def queryAux (value : Int) : List TableRow → Option TableRow
  | [] => none
  | r :: rs => if r.matches value then some r else queryAux value rs

/-- `Table.query` (src/models.py line 39). -/
def Table.query (t : Table) (value : Int) : Option TableRow :=
  queryAux value t.rows

/-- `Table.get_range_bounds` (src/models.py lines 46-52): `(0, 0)` for an
empty table, otherwise `min` of the starts and `max` of the ends, computed
as Python's `min`/`max` over a nonempty sequence fold. -/
def Table.get_range_bounds (t : Table) : Int × Int :=
  match t.rows with
  | [] => (0, 0)
  | r :: rs =>
      (rs.foldl (fun acc row => min acc row.range_start) r.range_start,
       rs.foldl (fun acc row => max acc row.range_end) r.range_end)

/-! ## src/loaders.py -/

/-- `CSVTableLoader._parse_range` (src/loaders.py lines 99-106): if the
string contains `'-'` and splits into exactly two parts, parse both parts;
otherwise parse the whole string as one integer used for both ends.  A parse
failure inside the two-part branch propagates (the row is skipped), it does
not fall through to the single-value branch. -/
def parse_range (s : String) : Option (Int × Int) :=
  if s.data.contains '-' then
    match splitDash s.data with
    | [a, b] =>
        match pyIntCore (pyStripL a), pyIntCore (pyStripL b) with
        | some x, some y => some (x, y)
        | _, _ => none
    | _ => (pyInt s).map (fun v => (v, v))
  else
    (pyInt s).map (fun v => (v, v))

/-- One iteration of the row loop of `CSVTableLoader._load_file`
(src/loaders.py lines 83-94): an empty `row_data` is skipped, otherwise the
first column is stripped and parsed as the range and the rest becomes the
content; a range parse failure skips the row. -/
def loadRow (row_data : List String) : Option TableRow :=
  match row_data with
  | [] => none
  | c0 :: rest => (parse_range (pyStrip c0)).map (fun p => ⟨p.1, p.2, rest⟩)

/-! ## TableDirectory (arena model) -/

/-- Modelled from the spec: `TableDirectory` (spec section 3) — name, owned
tables in insertion order, subdirectory map keyed by name (a Python dict:
insertion-ordered association list with unique keys), parent back-reference.
`src/models.py` does not define it although every module imports it from
`models`.  Nodes are arena entries identified by `Nat`. -/
structure DirNode where
  name : String
  tables : List Table
  subdirs : List (String × Nat)
  parent : Option Nat
deriving DecidableEq

/-- The arena of directory nodes: identifiers to node records. -/
def Store := Nat → DirNode

/-- Python dict assignment `d[k] = v`: replace in place when the key exists
(dicts keep the original position of an existing key), append otherwise. -/
def dictInsert (k : String) (v : Nat) : List (String × Nat) → List (String × Nat)
  | [] => [(k, v)]
  | (k', v') :: rest => if k' = k then (k, v) :: rest else (k', v') :: dictInsert k v rest

/-- Dict lookup by key. -/
def lookupName : List (String × Nat) → String → Option Nat
  | [], _ => none
  | (k, v) :: rest, key => if k = key then some v else lookupName rest key

/-- Modelled from the spec: `addSubdir` (spec section 4.2, exercised by
`src/tests/test_models.py` `test_add_subdir` and called from
`src/loaders.py` `_load_recursive`); absent from `src/models.py`.  Inserts
the child into the parent's `subdirs` keyed by the child's name and sets the
child's `parent` back-reference, both in one step. -/
def add_subdir (store : Store) (p c : Nat) : Store :=
  fun i =>
    if i = p then
      ⟨(store p).name, (store p).tables,
       dictInsert (store c).name c (store p).subdirs, (store p).parent⟩
    else if i = c then
      ⟨(store c).name, (store c).tables, (store c).subdirs, some p⟩
    else store i

/-! ## src/views.py — directory listing -/

/-- One entry of the browsing list, the `(display_name, type, object)`
triple of `get_items_for_dir` as a tagged variant. -/
inductive Entry
  | dirUp (target : Nat)
  | subdir (name : String) (target : Nat)
  | tbl (t : Table)
deriving DecidableEq

/-- The `display_name` component of an entry (`".."` for the parent). -/
def Entry.display : Entry → String
  | .dirUp _ => ".."
  | .subdir nm _ => nm
  | .tbl t => t.name

instance : DecidableRel (fun (a b : String × Nat) => a.1 ≤ b.1) :=
  fun a b => inferInstanceAs (Decidable (a.1 ≤ b.1))

instance : IsTotal (String × Nat) (fun a b => a.1 ≤ b.1) :=
  ⟨fun a b => le_total a.1 b.1⟩

instance : IsTrans (String × Nat) (fun a b => a.1 ≤ b.1) :=
  ⟨fun _ _ _ h h2 => le_trans h h2⟩

/-- `get_items_for_dir` (src/views.py lines 164-177): a `".."` entry when
the parent is set, then the subdirectories with their names sorted
ascending (`sorted(current_dir.subdirs.keys())`; the dict's keys are
unique, so sorting the pairs by key is the same as sorting the keys and
looking each one up), then the tables in stored order. -/
def get_items_for_dir (d : DirNode) : List Entry :=
  (match d.parent with
   | some p => [Entry.dirUp p]
   | none => []) ++
  (List.insertionSort (fun a b => a.1 ≤ b.1) d.subdirs).map
    (fun q => Entry.subdir q.1 q.2) ++
  d.tables.map Entry.tbl

/-! ## src/views.py — run_tui navigation state machine -/

/-- The mutable browsing state of `run_tui` (src/views.py lines 297-299):
current directory, breadcrumb path stack, selected index.  The index is an
`Int` because `min(len(items) - 1, idx + 1)` can transiently produce `-1`
on an empty list. -/
structure BrowseState where
  currentDir : Nat
  pathStack : List String
  selectedIdx : Int
deriving DecidableEq

/-- The selection normalization at the top of every loop iteration
(src/views.py lines 309-313): clamp to `len(items) - 1` from above, then to
`0` from below. -/
def normIdx (n : Nat) (i : Int) : Int :=
  let s := if i ≥ (n : Int) then (n : Int) - 1 else i
  if s < 0 then 0 else s

/-- The scroll offset recomputed at every render (src/views.py lines
336-338): `0`, unless the selection is past the first page, in which case
the selection sits on the window's last line. -/
def startIdx (page : Nat) (s : Int) : Int :=
  if s ≥ (page : Int) then s - (page : Int) + 1 else 0

/-- The status-bar name lookup (src/views.py lines 366-368): `"None"` for
an empty list, otherwise the display name at the selected index (`none`
would be an out-of-bounds `items[selected_idx]`). -/
def statusName (items : List Entry) (s : Int) : Option String :=
  if items.isEmpty then some "None"
  else (items[s.toNat]?).map Entry.display

/-- The key events `run_tui` reacts to. -/
inductive Key
  | up | down | quit | dump | enter | other
deriving DecidableEq

/-- What one iteration of the `run_tui` loop does: keep browsing with a new
state, leave the loop (`q`), show the dump view or the query view and come
back (both leave the navigation state as it was), or raise `IndexError`
(`crash`, never reached by the guarded code). -/
inductive StepResult
  | cont (st : BrowseState)
  | exit
  | dumped (t : Table) (st : BrowseState)
  | queried (t : Table) (st : BrowseState)
  | crash
deriving DecidableEq

/-- The state a result leaves the browsing loop in, if it stays in it. -/
def resultState : StepResult → Option BrowseState
  | .cont st => some st
  | .dumped _ st => some st
  | .queried _ st => some st
  | .exit => none
  | .crash => none

/-- One iteration of the `run_tui` loop (src/views.py lines 302-405):
recompute the entries, normalize the selection, then handle the key exactly
as the source's `if`/`elif` chain does. -/
def tuiStep (store : Store) (st : BrowseState) (k : Key) : StepResult :=
  let items := get_items_for_dir (store st.currentDir)
  let s := normIdx items.length st.selectedIdx
  match k with
  | .up => .cont ⟨st.currentDir, st.pathStack, max 0 (s - 1)⟩
  | .down => .cont ⟨st.currentDir, st.pathStack, min ((items.length : Int) - 1) (s + 1)⟩
  | .quit => .exit
  | .dump =>
      if items.isEmpty then .cont ⟨st.currentDir, st.pathStack, s⟩
      else
        match items[s.toNat]? with
        | some (Entry.tbl t) => .dumped t ⟨st.currentDir, st.pathStack, s⟩
        | some _ => .cont ⟨st.currentDir, st.pathStack, s⟩
        | none => .crash
  | .enter =>
      if items.isEmpty then .cont ⟨st.currentDir, st.pathStack, s⟩
      else
        match items[s.toNat]? with
        | some (Entry.dirUp _) =>
            match (store st.currentDir).parent with
            | some p => .cont ⟨p, st.pathStack.dropLast, 0⟩
            | none => .cont ⟨st.currentDir, st.pathStack, s⟩
        | some (Entry.subdir nm target) => .cont ⟨target, st.pathStack ++ [nm], 0⟩
        | some (Entry.tbl t) => .queried t ⟨st.currentDir, st.pathStack, s⟩
        | none => .crash
  | .other => .cont ⟨st.currentDir, st.pathStack, s⟩

/-! ## Query sessions -/

/-- What one accepted input line of a query loop leads to. -/
inductive QueryOutcome
  | exitProcess
  | back
  | showRow (r : TableRow)
  | noMatch
  | invalid
deriving DecidableEq

/-- One iteration of the CLI query loop `query_table` (src/main.py lines
73-121): strip, case-insensitive `"q"` exits the process, `"b"` returns to
browsing, then integer parse and table lookup; parse failure prints the
invalid-input notice.  The table is returned unchanged alongside the
outcome. -/
def cliQueryStep (t : Table) (input : String) : QueryOutcome × Table :=
  let s := pyStrip input
  if pyLower s = "q" then (.exitProcess, t)
  else if pyLower s = "b" then (.back, t)
  else
    match pyInt s with
    | some v =>
        match t.query v with
        | some r => (.showRow r, t)
        | none => (.noMatch, t)
    | none => (.invalid, t)

/-- One iteration of the TUI query view `query_table_view` (src/views.py
lines 226-255): strip, case-insensitive `"q"` breaks out of the view (back
to the browsing loop — it does not exit the process), there is no `"b"`
case, then integer parse and table lookup; parse failure shows the
invalid-input notice. -/
def tuiQueryStep (t : Table) (input : String) : QueryOutcome × Table :=
  let s := pyStrip input
  if pyLower s = "q" then (.back, t)
  else
    match pyInt s with
    | some v =>
        match t.query v with
        | some r => (.showRow r, t)
        | none => (.noMatch, t)
    | none => (.invalid, t)

/-- Modelled from the spec: the minimal-scrolling update C6 describes — keep
the previous offset while the selection stays inside the visible window,
jump to the selection when it moves above, put it on the last line when it
moves below.  Stated only to compare against the code's `startIdx`. -/
def spec_minimalScroll (prevOffset : Int) (page : Nat) (sel : Int) : Int :=
  if sel < prevOffset then sel
  else if sel ≥ prevOffset + (page : Int) then sel - (page : Int) + 1
  else prevOffset

/-! ## Concrete data for witnesses and counterexamples -/

/-- The row `(1, 4, "Low")` of the repository's own tests. -/
def rowLow : TableRow := ⟨1, 4, ["Low"]⟩

/-- The row `(5, 5, "Mid")` of the repository's own tests. -/
def rowMid : TableRow := ⟨5, 5, ["Mid"]⟩

/-- The row `(6, 10, "High")` of the repository's own tests. -/
def rowHigh : TableRow := ⟨6, 10, ["High"]⟩

/-- A row overlapping `rowLow`, to exercise the first-match policy. -/
def rowOverlap : TableRow := ⟨3, 6, ["Overlap"]⟩

/-- The three-row table of `src/tests/test_models.py`. -/
def sampleTable : Table := ⟨"TestTable", ["Range", "Result"], [rowLow, rowMid, rowHigh]⟩

/-- An empty table. -/
def emptyTable : Table := ⟨"Empty", [], []⟩

/-- A table with overlapping ranges: value 3 is matched by both rows. -/
def overlapTable : Table := ⟨"Overlap", ["Range", "Result"], [rowLow, rowOverlap]⟩

/-- A root node holding one table and one subdirectory. -/
def dirRoot : DirNode := ⟨"root", [sampleTable], [("sub", 1)], none⟩

/-- The subdirectory of `dirRoot`, with its parent back-reference set. -/
def dirSub : DirNode := ⟨"sub", [overlapTable], [], some 0⟩

/-- A two-node arena: `dirRoot` at 0, `dirSub` at 1. -/
def sampleStore : Store := fun n => if n = 0 then dirRoot else dirSub

/-- A root with no parent, no subdirectories and no tables. -/
def emptyRoot : DirNode := ⟨"root", [], [], none⟩

/-- An arena whose every node is the empty root. -/
def emptyStore : Store := fun _ => emptyRoot

/-- Eleven small tables, enough to scroll a five-line page. -/
def elevenTables : List Table :=
  [⟨"t0", [], []⟩, ⟨"t1", [], []⟩, ⟨"t2", [], []⟩, ⟨"t3", [], []⟩,
   ⟨"t4", [], []⟩, ⟨"t5", [], []⟩, ⟨"t6", [], []⟩, ⟨"t7", [], []⟩,
   ⟨"t8", [], []⟩, ⟨"t9", [], []⟩, ⟨"t10", [], []⟩]

/-- A root listing eleven tables. -/
def wideDir : DirNode := ⟨"wide", elevenTables, [], none⟩

/-- An arena whose every node is `wideDir`. -/
def wideStore : Store := fun _ => wideDir

/-- Two unattached directories, for exercising `add_subdir`. -/
def twoStore : Store := fun n =>
  if n = 0 then ⟨"parentDir", [], [], none⟩ else ⟨"childDir", [], [], none⟩

/-- The directory of the spec's listing example: subdirs inserted as
`"b"` then `"a"`, tables `[t2, t1]` in insertion order, not at root. -/
def demoDir : DirNode :=
  ⟨"demo", [⟨"t2", [], []⟩, ⟨"t1", [], []⟩], [("b", 5), ("a", 6)], some 9⟩

/-! ## Helper lemmas -/

theorem matches_iff (r : TableRow) (v : Int) :
    r.matches v = true ↔ r.range_start ≤ v ∧ v ≤ r.range_end := by
  simp [TableRow.matches]

theorem queryAux_eq_none (v : Int) (l : List TableRow) :
    queryAux v l = none ↔ ∀ r ∈ l, r.matches v = false := by
  induction l with
  | nil => simp [queryAux]
  | cons x xs ih =>
      by_cases h : x.matches v = true
      · simp [queryAux, h]
      · simp only [Bool.not_eq_true] at h
        simp [queryAux, h, ih]

theorem queryAux_eq_some (v : Int) (l : List TableRow) (r : TableRow) :
    queryAux v l = some r ↔
      ∃ pre post, l = pre ++ r :: post ∧ r.matches v = true ∧
        ∀ e ∈ pre, e.matches v = false := by
  induction l with
  | nil =>
      simp only [queryAux]
      constructor
      · intro h; exact absurd h (by simp)
      · rintro ⟨pre, post, h, -, -⟩
        exact absurd h.symm (List.append_ne_nil_of_right_ne_nil pre (by simp))
  | cons x xs ih =>
      by_cases h : x.matches v = true
      · rw [queryAux, if_pos h]
        constructor
        · intro he
          obtain rfl : x = r := by injection he
          exact ⟨[], xs, rfl, h, by simp⟩
        · rintro ⟨pre, post, heq, hm, hall⟩
          cases pre with
          | nil =>
              obtain ⟨rfl, -⟩ : x = r ∧ xs = post := by
                constructor <;> injection heq
              rfl
          | cons y ys =>
              obtain ⟨rfl, -⟩ : x = y ∧ xs = ys ++ r :: post := by
                constructor <;> injection heq
              have := hall x (by simp)
              rw [h] at this
              exact absurd this (by simp)
      · rw [queryAux, if_neg h, ih]
        simp only [Bool.not_eq_true] at h
        constructor
        · rintro ⟨pre, post, rfl, hm, hall⟩
          refine ⟨x :: pre, post, rfl, hm, ?_⟩
          intro e he
          rcases List.mem_cons.mp he with rfl | he
          · exact h
          · exact hall e he
        · rintro ⟨pre, post, heq, hm, hall⟩
          cases pre with
          | nil =>
              obtain ⟨rfl, -⟩ : x = r ∧ xs = post := by
                constructor <;> injection heq
              rw [hm] at h
              exact absurd h (by simp)
          | cons y ys =>
              obtain ⟨rfl, htl⟩ : x = y ∧ xs = ys ++ r :: post := by
                constructor <;> injection heq
              exact ⟨ys, post, htl, hm, fun e he => hall e (by simp [he])⟩

theorem foldl_min_le_init (f : TableRow → Int) :
    ∀ (l : List TableRow) (a : Int),
      l.foldl (fun acc x => min acc (f x)) a ≤ a
  | [], a => le_refl a
  | x :: xs, a =>
      le_trans (foldl_min_le_init f xs (min a (f x))) (min_le_left _ _)

theorem foldl_min_le_mem (f : TableRow → Int) :
    ∀ (l : List TableRow) (a : Int) (r : TableRow), r ∈ l →
      l.foldl (fun acc x => min acc (f x)) a ≤ f r := by
  intro l
  induction l with
  | nil => intro a r h; exact absurd h (by simp)
  | cons x xs ih =>
      intro a r h
      rcases List.mem_cons.mp h with rfl | h
      · exact le_trans (foldl_min_le_init f xs (min a (f r))) (min_le_right _ _)
      · exact ih (min a (f x)) r h

theorem foldl_min_attained (f : TableRow → Int) :
    ∀ (l : List TableRow) (a : Int),
      l.foldl (fun acc x => min acc (f x)) a = a ∨
        ∃ r ∈ l, l.foldl (fun acc x => min acc (f x)) a = f r := by
  intro l
  induction l with
  | nil => intro a; exact Or.inl rfl
  | cons x xs ih =>
      intro a
      rcases ih (min a (f x)) with h | ⟨r, hr, h⟩
      · rcases min_choice a (f x) with hm | hm
        · exact Or.inl (by rw [List.foldl_cons, h, hm])
        · exact Or.inr ⟨x, by simp, by rw [List.foldl_cons, h, hm]⟩
      · exact Or.inr ⟨r, by simp [hr], by rw [List.foldl_cons, h]⟩

theorem foldl_max_ge_init (f : TableRow → Int) :
    ∀ (l : List TableRow) (a : Int),
      a ≤ l.foldl (fun acc x => max acc (f x)) a
  | [], a => le_refl a
  | x :: xs, a =>
      le_trans (le_max_left _ _) (foldl_max_ge_init f xs (max a (f x)))

theorem foldl_max_ge_mem (f : TableRow → Int) :
    ∀ (l : List TableRow) (a : Int) (r : TableRow), r ∈ l →
      f r ≤ l.foldl (fun acc x => max acc (f x)) a := by
  intro l
  induction l with
  | nil => intro a r h; exact absurd h (by simp)
  | cons x xs ih =>
      intro a r h
      rcases List.mem_cons.mp h with rfl | h
      · exact le_trans (le_max_right _ _) (foldl_max_ge_init f xs (max a (f r)))
      · exact ih (max a (f x)) r h

theorem foldl_max_attained (f : TableRow → Int) :
    ∀ (l : List TableRow) (a : Int),
      l.foldl (fun acc x => max acc (f x)) a = a ∨
        ∃ r ∈ l, l.foldl (fun acc x => max acc (f x)) a = f r := by
  intro l
  induction l with
  | nil => intro a; exact Or.inl rfl
  | cons x xs ih =>
      intro a
      rcases ih (max a (f x)) with h | ⟨r, hr, h⟩
      · rcases max_choice a (f x) with hm | hm
        · exact Or.inl (by rw [List.foldl_cons, h, hm])
        · exact Or.inr ⟨x, by simp, by rw [List.foldl_cons, h, hm]⟩
      · exact Or.inr ⟨r, by simp [hr], by rw [List.foldl_cons, h]⟩

theorem normIdx_nonneg (n : Nat) (i : Int) : 0 ≤ normIdx n i := by
  simp only [normIdx]
  split_ifs <;> omega

theorem normIdx_lt (n : Nat) (i : Int) (h : 0 < n) : normIdx n i < (n : Int) := by
  simp only [normIdx]
  split_ifs <;> omega

theorem normIdx_of_nil (i : Int) : normIdx 0 i = 0 := by
  simp only [normIdx]
  split_ifs <;> omega

theorem normIdx_zero (n : Nat) (h : 0 < n) : normIdx n 0 = 0 := by
  simp only [normIdx]
  split_ifs <;> omega

theorem startIdx_eq_max (page : Nat) (s : Int) :
    startIdx page s = max 0 (s - (page : Int) + 1) := by
  unfold startIdx
  split_ifs <;> omega

theorem startIdx_window (page : Nat) (s : Int) (hp : 1 ≤ page) (hs : 0 ≤ s) :
    startIdx page s ≤ s ∧ s < startIdx page s + (page : Int) := by
  unfold startIdx
  split_ifs <;> constructor <;> omega

theorem lookupName_dictInsert (k : String) (v : Nat) (l : List (String × Nat)) :
    lookupName (dictInsert k v l) k = some v := by
  induction l with
  | nil => simp [dictInsert, lookupName]
  | cons p rest ih =>
      by_cases h : p.1 = k
      · simp [dictInsert, lookupName, h]
      · simp [dictInsert, lookupName, h, ih]

theorem matches_false_iff (r : TableRow) (v : Int) :
    r.matches v = false ↔ ¬(r.range_start ≤ v ∧ v ≤ r.range_end) := by
  rw [← Bool.not_eq_true, matches_iff]

/-! ## Claim theorems -/

/-- C1: `Table.query` scans the rows in stored order and returns the first
row whose inclusive range contains the value — `matches` holds exactly for
`range_start ≤ value ≤ range_end`, both boundaries match on a well-ordered
row, `query` returns `none` exactly when no row's range contains the value,
and `query` returns `some r` exactly when `r` matches and every earlier
(earlier-loaded) row does not, so overlaps resolve to the earliest row. -/
theorem C1_query_first_match (t : Table) (v : Int) :
    (∀ r : TableRow, r.matches v = true ↔ r.range_start ≤ v ∧ v ≤ r.range_end) ∧
    (∀ r : TableRow, r.range_start ≤ r.range_end →
        r.matches r.range_start = true ∧ r.matches r.range_end = true) ∧
    (t.query v = none ↔ ∀ r ∈ t.rows, ¬(r.range_start ≤ v ∧ v ≤ r.range_end)) ∧
    (∀ r : TableRow, t.query v = some r ↔
        ∃ pre post, t.rows = pre ++ r :: post ∧
          (r.range_start ≤ v ∧ v ≤ r.range_end) ∧
          ∀ e ∈ pre, ¬(e.range_start ≤ v ∧ v ≤ e.range_end)) := by
  refine ⟨fun r => matches_iff r v, ?_, ?_, ?_⟩
  · intro r h
    constructor <;> rw [matches_iff] <;> omega
  · rw [Table.query, queryAux_eq_none]
    simp only [matches_false_iff]
  · intro r
    rw [Table.query, queryAux_eq_some]
    simp only [matches_iff, matches_false_iff]

/-- C1 witness: on the overlapping table (value 3 is inside both rows'
ranges) the earliest-loaded row wins, and an uncovered value yields none. -/
theorem C1_witness :
    overlapTable.query 3 = some rowLow ∧ overlapTable.query 11 = none :=
  ⟨((C1_query_first_match overlapTable 3).2.2.2 rowLow).mpr
      ⟨[], [rowOverlap], rfl, by decide, by decide⟩,
   (C1_query_first_match overlapTable 11).2.2.1.mpr (by decide)⟩

/-- C2: `get_range_bounds` is the sentinel `(0, 0)` on an empty table, and
otherwise returns a lower bound of all `range_start` and an upper bound of
all `range_end`, each attained by some row — i.e. exactly
`(min of range_start, max of range_end)`. -/
theorem C2_range_bounds (t : Table) :
    (t.rows = [] → t.get_range_bounds = (0, 0)) ∧
    (∀ r ∈ t.rows,
        t.get_range_bounds.1 ≤ r.range_start ∧ r.range_end ≤ t.get_range_bounds.2) ∧
    (t.rows ≠ [] →
        (∃ r ∈ t.rows, t.get_range_bounds.1 = r.range_start) ∧
        (∃ r ∈ t.rows, t.get_range_bounds.2 = r.range_end)) := by
  rcases ht : t.rows with - | ⟨x, xs⟩
  · refine ⟨fun _ => ?_, ?_, fun h => absurd rfl h⟩
    · simp only [Table.get_range_bounds, ht]
    · intro r hr
      exact absurd hr (by simp)
  · have hb : t.get_range_bounds =
        (xs.foldl (fun acc row => min acc row.range_start) x.range_start,
         xs.foldl (fun acc row => max acc row.range_end) x.range_end) := by
      simp only [Table.get_range_bounds, ht]
    refine ⟨fun h => absurd h (by simp), ?_, fun _ => ?_⟩
    · intro r hr
      rw [hb]
      rcases List.mem_cons.mp hr with rfl | hr
      · exact ⟨foldl_min_le_init _ xs _, foldl_max_ge_init _ xs _⟩
      · exact ⟨foldl_min_le_mem _ xs _ r hr, foldl_max_ge_mem _ xs _ r hr⟩
    · rw [hb]
      constructor
      · rcases foldl_min_attained (fun row => row.range_start) xs x.range_start with
          h | ⟨r, hr, h⟩
        · exact ⟨x, by simp, h⟩
        · exact ⟨r, by simp [hr], h⟩
      · rcases foldl_max_attained (fun row => row.range_end) xs x.range_end with
          h | ⟨r, hr, h⟩
        · exact ⟨x, by simp, h⟩
        · exact ⟨r, by simp [hr], h⟩

/-- C2 witness: the sentinel on the empty table, and attained bounds on the
three-row table of the repository's tests (whose bounds are `(1, 10)`). -/
theorem C2_witness :
    emptyTable.get_range_bounds = (0, 0) ∧
    ((∃ r ∈ sampleTable.rows, sampleTable.get_range_bounds.1 = r.range_start) ∧
     (∃ r ∈ sampleTable.rows, sampleTable.get_range_bounds.2 = r.range_end)) :=
  ⟨(C2_range_bounds emptyTable).1 rfl, (C2_range_bounds sampleTable).2.2 (by decide)⟩

/-- C3: `get_items_for_dir` lists a PARENT (`..`) entry first exactly when
the parent is set, then one SUBDIR entry per child in an order that is a
permutation of the stored subdirectory map with names sorted ascending,
then one TABLE entry per table in stored insertion order (never sorted). -/
theorem C3_listEntries (d : DirNode) :
    ∃ ds : List (String × Nat),
      ds.Perm d.subdirs ∧ (ds.map Prod.fst).Sorted (· ≤ ·) ∧
      get_items_for_dir d =
        (d.parent.elim [] fun p => [Entry.dirUp p]) ++
          ds.map (fun q => Entry.subdir q.1 q.2) ++ d.tables.map Entry.tbl := by
  refine ⟨List.insertionSort (fun a b => a.1 ≤ b.1) d.subdirs,
    List.perm_insertionSort _ _, ?_, ?_⟩
  · have hs := List.sorted_insertionSort (fun (a b : String × Nat) => a.1 ≤ b.1) d.subdirs
    exact List.Pairwise.map _ (fun a b h => h) hs
  · unfold get_items_for_dir
    cases d.parent <;> rfl

/-- C3 witness: the spec's listing example — subdirs inserted `"b"` then
`"a"`, tables `[t2, t1]`, a non-root node. -/
theorem C3_witness :
    ∃ ds : List (String × Nat),
      ds.Perm demoDir.subdirs ∧ (ds.map Prod.fst).Sorted (· ≤ ·) ∧
      get_items_for_dir demoDir =
        (demoDir.parent.elim [] fun p => [Entry.dirUp p]) ++
          ds.map (fun q => Entry.subdir q.1 q.2) ++ demoDir.tables.map Entry.tbl :=
  C3_listEntries demoDir

/-- C4 counterexample: in the TUI query view (src/views.py lines 226-255),
`"q"` does not signal process-exit (it breaks back to the browsing loop)
and `"b"` does not signal return-to-browsing — it falls through to the
integer parse and is reported as invalid input. -/
theorem C4_counterexample :
    (tuiQueryStep sampleTable "q").1 ≠ QueryOutcome.exitProcess ∧
    (tuiQueryStep sampleTable "b").1 ≠ QueryOutcome.back ∧
    (tuiQueryStep sampleTable "q").1 = QueryOutcome.back ∧
    (tuiQueryStep sampleTable "b").1 = QueryOutcome.invalid := by
  decide

/-- C4 (amended): in the CLI query loop (src/main.py), trimmed input
case-insensitively equal to `"q"` signals process-exit, `"b"` signals
return-to-browsing, and any other input that fails integer parsing yields
the invalid-input outcome; in the TUI query view (src/views.py), `"q"`
signals return-to-browsing, there is no `"b"` case, and any non-`"q"`
input that fails integer parsing yields the invalid-input outcome.  Both
loops leave the table unchanged on every input. -/
theorem C4_query_input_handling (t : Table) (input : String) :
    ((pyLower (pyStrip input) = "q" →
        cliQueryStep t input = (.exitProcess, t) ∧
        tuiQueryStep t input = (.back, t)) ∧
     (pyLower (pyStrip input) = "b" → cliQueryStep t input = (.back, t)) ∧
     (pyLower (pyStrip input) ≠ "q" → pyLower (pyStrip input) ≠ "b" →
        pyInt (pyStrip input) = none →
        cliQueryStep t input = (.invalid, t) ∧
        tuiQueryStep t input = (.invalid, t))) ∧
    ((cliQueryStep t input).2 = t ∧ (tuiQueryStep t input).2 = t) := by
  refine ⟨⟨?_, ?_, ?_⟩, ?_, ?_⟩
  · intro h
    constructor <;> simp [cliQueryStep, tuiQueryStep, h]
  · intro h
    have hq : pyLower (pyStrip input) ≠ "q" := by
      rw [h]; decide
    simp [cliQueryStep, h, hq]
  · intro hq hb hn
    constructor <;> simp [cliQueryStep, tuiQueryStep, hq, hb, hn]
  · by_cases h1 : pyLower (pyStrip input) = "q"
    · simp [cliQueryStep, h1]
    · by_cases h2 : pyLower (pyStrip input) = "b"
      · simp [cliQueryStep, h1, h2]
      · rcases hn : pyInt (pyStrip input) with - | v
        · simp [cliQueryStep, h1, h2, hn]
        · rcases hq : t.query v with - | r <;>
            simp [cliQueryStep, h1, h2, hn, hq]
  · by_cases h1 : pyLower (pyStrip input) = "q"
    · simp [tuiQueryStep, h1]
    · rcases hn : pyInt (pyStrip input) with - | v
      · simp [tuiQueryStep, h1, hn]
      · rcases hq : t.query v with - | r <;>
          simp [tuiQueryStep, h1, hn, hq]

/-- C4 witness: `" Q "` trims and lowercases to `"q"`: the CLI loop exits
the process and the TUI view returns to browsing. -/
theorem C4_witness :
    cliQueryStep sampleTable " Q " = (QueryOutcome.exitProcess, sampleTable) ∧
    tuiQueryStep sampleTable " Q " = (QueryOutcome.back, sampleTable) :=
  (C4_query_input_handling sampleTable " Q ").1.1 (by decide)

/-- C5: after any input event that keeps the session alive, the state the
next iteration renders satisfies the navigation invariant: the normalized
selection is `0` on an empty entries list, lies in `[0, count)` on a
non-empty one, and the recomputed scroll window of size `page ≥ 1` contains
it (`startIdx ≤ selection < startIdx + page`). -/
theorem C5_nav_invariant (store : Store) (page : Nat) (st : BrowseState) (k : Key)
    (st2 : BrowseState) (hp : 1 ≤ page)
    (_h : resultState (tuiStep store st k) = some st2) :
    (0 ≤ normIdx (get_items_for_dir (store st2.currentDir)).length st2.selectedIdx) ∧
    ((get_items_for_dir (store st2.currentDir)).length ≠ 0 →
        normIdx (get_items_for_dir (store st2.currentDir)).length st2.selectedIdx <
          ((get_items_for_dir (store st2.currentDir)).length : Int)) ∧
    ((get_items_for_dir (store st2.currentDir)).length = 0 →
        normIdx (get_items_for_dir (store st2.currentDir)).length st2.selectedIdx = 0) ∧
    (startIdx page
        (normIdx (get_items_for_dir (store st2.currentDir)).length st2.selectedIdx) ≤
      normIdx (get_items_for_dir (store st2.currentDir)).length st2.selectedIdx ∧
     normIdx (get_items_for_dir (store st2.currentDir)).length st2.selectedIdx <
      startIdx page
        (normIdx (get_items_for_dir (store st2.currentDir)).length st2.selectedIdx) +
        (page : Int)) := by
  refine ⟨normIdx_nonneg _ _, ?_, ?_, ?_⟩
  · intro hn
    exact normIdx_lt _ _ (Nat.pos_of_ne_zero hn)
  · intro hn
    rw [hn]
    exact normIdx_of_nil _
  · exact startIdx_window page _ hp (normIdx_nonneg _ _)

/-- C5 witness: a down-move from an out-of-range stored index in the sample
tree lands on a state whose rendered window (page 3) contains the
normalized selection. -/
theorem C5_witness :
    startIdx 3 (normIdx (get_items_for_dir (sampleStore 0)).length 1) ≤
        normIdx (get_items_for_dir (sampleStore 0)).length 1 ∧
      normIdx (get_items_for_dir (sampleStore 0)).length 1 <
        startIdx 3 (normIdx (get_items_for_dir (sampleStore 0)).length 1) + (3 : Int) :=
  (C5_nav_invariant sampleStore 3 ⟨0, ["root"], 99⟩ Key.down ⟨0, ["root"], 1⟩
      (by decide) (by decide)).2.2.2

/-- C6 counterexample: with 11 entries and a page of 5, the rendered offset
at selection 10 is 6 (window `[6, 11)`); a move-up puts the selection at 9,
still inside that window, so the claimed minimal scrolling keeps the offset
at 6 — but the code recomputes it statelessly and renders offset 5. -/
theorem C6_counterexample :
    startIdx 5 (normIdx (get_items_for_dir (wideStore 0)).length 10) = 6 ∧
    resultState (tuiStep wideStore ⟨0, ["wide"], 10⟩ Key.up) =
      some ⟨0, ["wide"], 9⟩ ∧
    startIdx 5 (normIdx (get_items_for_dir (wideStore 0)).length 9) = 5 ∧
    spec_minimalScroll 6 5 9 = 6 ∧
    (5 : Int) ≠ 6 := by
  decide

/-- C6 (amended): a move-up/move-down event replaces the normalized
selection by `max 0 (s - 1)` / `min (count - 1) (s + 1)` — the claimed
clamping to `[0, count - 1]` on a non-empty list — but the scroll offset is
not kept and minimally adjusted: it is recomputed from scratch at every
render as `max 0 (s - page + 1)` (`0` while the selection is on the first
page, otherwise the selection sits on the window's last line), which always
contains the selection but forgets the previous offset. -/
theorem C6_move_semantics (store : Store) (page : Nat) (st : BrowseState)
    (hp : 1 ≤ page) :
    (tuiStep store st Key.up = StepResult.cont
        ⟨st.currentDir, st.pathStack,
          max 0 (normIdx (get_items_for_dir (store st.currentDir)).length
              st.selectedIdx - 1)⟩) ∧
    (tuiStep store st Key.down = StepResult.cont
        ⟨st.currentDir, st.pathStack,
          min (((get_items_for_dir (store st.currentDir)).length : Int) - 1)
            (normIdx (get_items_for_dir (store st.currentDir)).length
              st.selectedIdx + 1)⟩) ∧
    ((get_items_for_dir (store st.currentDir)).length ≠ 0 →
        0 ≤ max 0 (normIdx (get_items_for_dir (store st.currentDir)).length
            st.selectedIdx - 1) ∧
        max 0 (normIdx (get_items_for_dir (store st.currentDir)).length
            st.selectedIdx - 1) ≤
          ((get_items_for_dir (store st.currentDir)).length : Int) - 1 ∧
        0 ≤ min (((get_items_for_dir (store st.currentDir)).length : Int) - 1)
            (normIdx (get_items_for_dir (store st.currentDir)).length
              st.selectedIdx + 1) ∧
        min (((get_items_for_dir (store st.currentDir)).length : Int) - 1)
            (normIdx (get_items_for_dir (store st.currentDir)).length
              st.selectedIdx + 1) ≤
          ((get_items_for_dir (store st.currentDir)).length : Int) - 1) ∧
    (∀ s : Int, 0 ≤ s →
        startIdx page s = max 0 (s - (page : Int) + 1) ∧
        startIdx page s ≤ s ∧ s < startIdx page s + (page : Int)) := by
  refine ⟨rfl, rfl, ?_, ?_⟩
  · intro hn
    have h0 := normIdx_nonneg (get_items_for_dir (store st.currentDir)).length
      st.selectedIdx
    have h1 := normIdx_lt (get_items_for_dir (store st.currentDir)).length
      st.selectedIdx (Nat.pos_of_ne_zero hn)
    exact ⟨le_max_left _ _, max_le (by omega) (by omega),
      le_min (by omega) (by omega), min_le_left _ _⟩
  · intro s hs
    exact ⟨startIdx_eq_max page s, (startIdx_window page s hp hs).1,
      (startIdx_window page s hp hs).2⟩

/-- C6 witness: the move-up equation evaluated on the eleven-table root. -/
theorem C6_witness :
    tuiStep wideStore ⟨0, ["wide"], 10⟩ Key.up = StepResult.cont ⟨0, ["wide"], 9⟩ := by
  have h := (C6_move_semantics wideStore 5 ⟨0, ["wide"], 10⟩ (by decide)).1
  exact h.trans (by decide)

/-- C7: `add_subdir` attaches both directions in one step: afterwards the
parent's `subdirs` maps the child's name to the child, and the child's
`parent` is the parent.  (The operation is a single pure update, so no
intermediate one-sided state is observable.) -/
theorem C7_add_subdir (store : Store) (p c : Nat) (hpc : p ≠ c) :
    lookupName ((add_subdir store p c) p).subdirs (store c).name = some c ∧
    ((add_subdir store p c) c).parent = some p := by
  constructor
  · have hp2 : (add_subdir store p c) p =
        ⟨(store p).name, (store p).tables,
         dictInsert (store c).name c (store p).subdirs, (store p).parent⟩ := by
      simp [add_subdir]
    rw [hp2]
    exact lookupName_dictInsert _ _ _
  · have hc2 : (add_subdir store p c) c =
        ⟨(store c).name, (store c).tables, (store c).subdirs, some p⟩ := by
      simp [add_subdir, Ne.symm hpc]
    rw [hc2]

/-- C7 witness: attaching node 1 under node 0 in the two-node arena. -/
theorem C7_witness :
    lookupName ((add_subdir twoStore 0 1) 0).subdirs (twoStore 1).name = some 1 ∧
    ((add_subdir twoStore 0 1) 1).parent = some 0 :=
  C7_add_subdir twoStore 0 1 (by decide)

/-- C8: activating a SUBDIR entry moves into the child (pushing its name on
the path stack and resetting the selection), and activating the PARENT
entry from there — the first entry of the child's listing, where the
selection was just reset to — moves back to the original directory and pops
the path stack, restoring both to their prior values.  The hypothesis
`h2` is the tree invariant: the child's parent back-reference points at the
directory it is listed under. -/
theorem C8_round_trip (store : Store) (st : BrowseState) (nm : String) (c : Nat)
    (h1 : (get_items_for_dir (store st.currentDir))[(normIdx
        (get_items_for_dir (store st.currentDir)).length st.selectedIdx).toNat]?
        = some (Entry.subdir nm c))
    (h2 : (store c).parent = some st.currentDir) :
    tuiStep store st Key.enter = StepResult.cont ⟨c, st.pathStack ++ [nm], 0⟩ ∧
    tuiStep store ⟨c, st.pathStack ++ [nm], 0⟩ Key.enter =
      StepResult.cont ⟨st.currentDir, st.pathStack, 0⟩ := by
  constructor
  · have hne : (get_items_for_dir (store st.currentDir)).isEmpty = false := by
      cases hI : (get_items_for_dir (store st.currentDir)).isEmpty with
      | false => rfl
      | true =>
          rw [List.isEmpty_iff] at hI
          rw [hI] at h1
          simp at h1
    simp [tuiStep, hne, h1]
  · have hitems : get_items_for_dir (store c) =
        Entry.dirUp st.currentDir ::
          ((List.insertionSort (fun a b => a.1 ≤ b.1) (store c).subdirs).map
            (fun q => Entry.subdir q.1 q.2) ++ (store c).tables.map Entry.tbl) := by
      unfold get_items_for_dir
      rw [h2]
      rfl
    have hlen : 0 < (get_items_for_dir (store c)).length := by
      rw [hitems]
      simp
    have hEmpty : (get_items_for_dir (store c)).isEmpty = false := by
      rw [hitems]
      rfl
    have hget : (get_items_for_dir (store c))[(0 : Nat)]? =
        some (Entry.dirUp st.currentDir) := by
      rw [hitems]
      simp
    simp [tuiStep, hEmpty, normIdx_zero _ hlen, hget, h2, List.dropLast_concat]

/-- C8 witness: descending into `sub` from the sample root and activating
the PARENT entry restores the root and the path stack. -/
theorem C8_witness :
    tuiStep sampleStore ⟨0, ["root"], 0⟩ Key.enter =
      StepResult.cont ⟨1, ["root"] ++ ["sub"], 0⟩ ∧
    tuiStep sampleStore ⟨1, ["root"] ++ ["sub"], 0⟩ Key.enter =
      StepResult.cont ⟨0, ["root"], 0⟩ :=
  C8_round_trip sampleStore ⟨0, ["root"], 0⟩ "sub" 1 (by decide) (by decide)

/-- C9 counterexample: the loader accepts the range string `"5-2"` and
constructs a row with `range_start = 5 > 2 = range_end`; no rejection
happens, contradicting the claim that such rows are never constructed. -/
theorem C9_counterexample :
    loadRow ["5-2", "X"] = some ⟨5, 2, ["X"]⟩ ∧ ¬((5 : Int) ≤ (2 : Int)) := by
  decide

/-- C9 (amended): the loader rejects a row only when integer parsing of its
range string fails; an accepted row carries exactly the parsed pair with no
ordering validation, so `rangeStart ≤ rangeEnd` is not guaranteed for
dash-separated ranges (e.g. `"5-2"`).  Only single-value range strings
(no dash) always satisfy the invariant, with `rangeStart = rangeEnd`. -/
theorem C9_loader_rows (row_data : List String) (r : TableRow)
    (h : loadRow row_data = some r) :
    (∃ c0 rest, row_data = c0 :: rest ∧
        parse_range (pyStrip c0) = some (r.range_start, r.range_end) ∧
        r.content = rest) ∧
    (∀ s : String, s.data.contains '-' = false →
        ∀ a b : Int, parse_range s = some (a, b) → a = b) := by
  constructor
  · cases row_data with
    | nil => simp [loadRow] at h
    | cons c0 rest =>
        rcases Option.map_eq_some'.mp h with ⟨p, hp, hf⟩
        refine ⟨c0, rest, rfl, ?_, ?_⟩
        · rw [← hf]
          exact hp
        · rw [← hf]
  · intro s hs a b hab
    unfold parse_range at hab
    rw [hs] at hab
    rw [if_neg (show ¬(false = true) by simp)] at hab
    rcases Option.map_eq_some'.mp hab with ⟨v, -, hv⟩
    rw [Prod.ext_iff] at hv
    have h1 : v = a := hv.1
    have h2 : v = b := hv.2
    omega

/-- C9 witness: the accepted row `["5-2", "X"]` decomposes exactly as the
amended claim describes, with the unvalidated parsed pair `(5, 2)`. -/
theorem C9_witness :
    ∃ c0 rest, ["5-2", "X"] = c0 :: rest ∧
      parse_range (pyStrip c0) = some ((5 : Int), (2 : Int)) ∧
      (["X"] : List String) = rest :=
  (C9_loader_rows ["5-2", "X"] ⟨5, 2, ["X"]⟩ (by decide)).1

/-- C10: with an empty entries list every input event is safe — the step
never raises an out-of-bounds indexing (`crash`), every continuing event
preserves the current directory and path stack with the selection
normalizing to 0 at the start of the next iteration, the activate and
dump events are exact no-ops behind the emptiness guard, and the status
bar shows `"None"` without indexing the list. -/
theorem C10_empty_safe (store : Store) (st : BrowseState) (k : Key)
    (h : get_items_for_dir (store st.currentDir) = []) :
    (tuiStep store st k ≠ StepResult.crash) ∧
    (∀ st2 : BrowseState, resultState (tuiStep store st k) = some st2 →
        st2.currentDir = st.currentDir ∧ st2.pathStack = st.pathStack ∧
        normIdx (get_items_for_dir (store st2.currentDir)).length st2.selectedIdx = 0) ∧
    (tuiStep store st Key.dump = StepResult.cont ⟨st.currentDir, st.pathStack, 0⟩) ∧
    (tuiStep store st Key.enter = StepResult.cont ⟨st.currentDir, st.pathStack, 0⟩) ∧
    (statusName (get_items_for_dir (store st.currentDir))
        (normIdx (get_items_for_dir (store st.currentDir)).length st.selectedIdx) =
      some "None") := by
  refine ⟨?_, ?_, ?_, ?_, ?_⟩
  · cases k <;> simp [tuiStep, h]
  · intro st2 hres
    have hcp : st2.currentDir = st.currentDir ∧ st2.pathStack = st.pathStack := by
      cases k <;> simp [tuiStep, resultState, h] at hres <;>
        cases hres <;> exact ⟨rfl, rfl⟩
    refine ⟨hcp.1, hcp.2, ?_⟩
    rw [hcp.1, h]
    exact normIdx_of_nil _
  · simp [tuiStep, h, normIdx_of_nil]
  · simp [tuiStep, h, normIdx_of_nil]
  · simp [statusName, h]

/-- C10 witness: on the empty root, dump and activate are no-ops that reset
the out-of-range stored selection to 0. -/
theorem C10_witness :
    tuiStep emptyStore ⟨0, [], 5⟩ Key.dump = StepResult.cont ⟨0, [], 0⟩ ∧
    tuiStep emptyStore ⟨0, [], 5⟩ Key.enter = StepResult.cont ⟨0, [], 0⟩ :=
  ⟨(C10_empty_safe emptyStore ⟨0, [], 5⟩ Key.down (by decide)).2.2.1,
   (C10_empty_safe emptyStore ⟨0, [], 5⟩ Key.down (by decide)).2.2.2.1⟩

end TTRPG
